import Mathlib

/-!
A shallow embedding of the linkage checker of `cargo-dist`
(`src/cargo-dist/src/linkage.rs`), together with theorems settling the
claims of the specification against it.

The embedding models the effectful surface of the Rust code (host OS,
filesystem, subprocess output) as an explicit environment of oracles
(`Env`); every Rust function of the linkage checker becomes a pure Lean
function over that environment.  String operations are re-implemented
over `List Char` so that every definition is executable by the kernel
(`String.splitOn` and friends are defined by well-founded recursion and
do not reduce definitionally).
-/

namespace CargoDist

deriving instance DecidableEq for Except

/-! ## String helpers (kernel-computable counterparts of the Rust `str` API) -/

/-- Unicode White_Space test, as used by Rust's `char::is_whitespace`
(`str::trim` and `str::trim_end` trim exactly these characters). -/
def isUnicodeWS (c : Char) : Bool :=
  decide (c.toNat ∈ [0x09, 0x0A, 0x0B, 0x0C, 0x0D, 0x20, 0x85, 0xA0, 0x1680,
    0x2000, 0x2001, 0x2002, 0x2003, 0x2004, 0x2005, 0x2006, 0x2007, 0x2008,
    0x2009, 0x200A, 0x2028, 0x2029, 0x202F, 0x205F, 0x3000])

/-- Rust `str::trim`: strip leading and trailing whitespace. -/
def chTrim (s : String) : String :=
  ⟨((s.data.dropWhile isUnicodeWS).reverse.dropWhile isUnicodeWS).reverse⟩

/-- Rust `str::trim_end`: strip trailing whitespace only. -/
def chTrimEnd (s : String) : String :=
  ⟨(s.data.reverse.dropWhile isUnicodeWS).reverse⟩

/-- Worker for `chSplit`: scan left to right, cutting at each
non-overlapping occurrence of `sep`.  The `fuel` argument only makes the
recursion structural; callers pass more fuel than the input length, so
the `fuel = 0` branch is never reached. -/
def splitSeqAux (sep : List Char) : Nat → List Char → List Char → List (List Char)
  | _, [], acc => [acc.reverse]
  | 0, rest, acc => [acc.reverse ++ rest]
  | fuel + 1, c :: rest, acc =>
    if sep.isPrefixOf (c :: rest) then
      acc.reverse :: splitSeqAux sep fuel ((c :: rest).drop sep.length) []
    else
      splitSeqAux sep fuel rest (c :: acc)

/-- Rust `str::split` on a non-empty separator pattern (for a one-char
separator this coincides with `split(char)`).  Like in Rust, the result
is never empty: splitting the empty string yields `[""]`. -/
def chSplit (sep s : String) : List String :=
  if sep.data.isEmpty then [s]
  else (splitSeqAux sep.data (s.data.length + 1) s.data []).map (fun l => ⟨l⟩)

/-- Rust `str::starts_with` (a char prefix is a byte prefix for UTF-8). -/
def chStartsWith (s pfxS : String) : Bool :=
  pfxS.data.isPrefixOf s.data

/-- Rust `str::ends_with`. -/
def chEndsWith (s sfx : String) : Bool :=
  sfx.data.isSuffixOf s.data

/-- Model of `camino::Utf8PathBuf::join`: pushing an absolute path replaces the
base; otherwise a separator is inserted unless the base already ends in
one. -/
def joinPath (a b : String) : String :=
  if chStartsWith b "/" then b
  else if chEndsWith a "/" then a ++ b
  else a ++ "/" ++ b

/-- Model of `camino::Utf8Path::file_name` (as used on the inspected binary's
path, which never ends in a separator): the last `/`-separated
component. -/
def fileName (p : String) : String :=
  (chSplit "/" p).getLastD ""

/-! ## UTF-8 decoding (Rust `String::from_utf8`) -/

/-- Is `b` a UTF-8 continuation byte (`0x80..=0xBF`)? -/
def utf8Cont (b : UInt8) : Bool :=
  decide (0x80 ≤ b.toNat ∧ b.toNat < 0xC0)

/-- Admissible second byte of a three-byte sequence led by `b0`
(excludes overlong forms and surrogates, per RFC 3629). -/
def utf8Snd3 (b0 b1 : UInt8) : Bool :=
  decide ((b0.toNat = 0xE0 ∧ 0xA0 ≤ b1.toNat ∧ b1.toNat < 0xC0) ∨
    (0xE1 ≤ b0.toNat ∧ b0.toNat ≤ 0xEC ∧ 0x80 ≤ b1.toNat ∧ b1.toNat < 0xC0) ∨
    (b0.toNat = 0xED ∧ 0x80 ≤ b1.toNat ∧ b1.toNat < 0xA0) ∨
    (0xEE ≤ b0.toNat ∧ b0.toNat ≤ 0xEF ∧ 0x80 ≤ b1.toNat ∧ b1.toNat < 0xC0))

/-- Admissible second byte of a four-byte sequence led by `b0`
(excludes overlong forms and code points beyond U+10FFFF). -/
def utf8Snd4 (b0 b1 : UInt8) : Bool :=
  decide ((b0.toNat = 0xF0 ∧ 0x90 ≤ b1.toNat ∧ b1.toNat < 0xC0) ∨
    (0xF1 ≤ b0.toNat ∧ b0.toNat ≤ 0xF3 ∧ 0x80 ≤ b1.toNat ∧ b1.toNat < 0xC0) ∨
    (b0.toNat = 0xF4 ∧ 0x80 ≤ b1.toNat ∧ b1.toNat < 0x90))

/-- Strict UTF-8 decoding of a byte list, `none` exactly on ill-formed
input — the validity test performed by Rust's `String::from_utf8`. -/
def utf8Decode : List UInt8 → Option (List Char)
  | [] => some []
  | b0 :: rest =>
    if b0.toNat < 0x80 then
      (utf8Decode rest).map (fun cs => Char.ofNat b0.toNat :: cs)
    else if b0.toNat < 0xC2 then none
    else if b0.toNat < 0xE0 then
      match rest with
      | b1 :: rest1 =>
        if utf8Cont b1 then
          (utf8Decode rest1).map (fun cs =>
            Char.ofNat ((b0.toNat - 0xC0) * 64 + (b1.toNat - 0x80)) :: cs)
        else none
      | [] => none
    else if b0.toNat < 0xF0 then
      match rest with
      | b1 :: b2 :: rest2 =>
        if utf8Snd3 b0 b1 && utf8Cont b2 then
          (utf8Decode rest2).map (fun cs =>
            Char.ofNat ((b0.toNat - 0xE0) * 4096 + (b1.toNat - 0x80) * 64
              + (b2.toNat - 0x80)) :: cs)
        else none
      | _ => none
    else if b0.toNat < 0xF5 then
      match rest with
      | b1 :: b2 :: b3 :: rest3 =>
        if utf8Snd4 b0 b1 && utf8Cont b2 && utf8Cont b3 then
          (utf8Decode rest3).map (fun cs =>
            Char.ofNat ((b0.toNat - 0xF0) * 262144 + (b1.toNat - 0x80) * 4096
              + (b2.toNat - 0x80) * 64 + (b3.toNat - 0x80)) :: cs)
        else none
      | _ => none
    else none

/-- Rust `String::from_utf8` on raw subprocess output. -/
def utf8String (bs : List UInt8) : Option String :=
  (utf8Decode bs).map (fun cs => ⟨cs⟩)

/-- Byte encoding of an ASCII string, to build concrete subprocess
outputs in examples. -/
def asciiBytes (s : String) : List UInt8 :=
  s.data.map (fun c => UInt8.ofNat c.toNat)

/-! ## Data model -/

/-- Modelled from the spec: `cargo_dist_schema::Library` (declared
outside the sources at hand) — one dynamic dependency: its reported
`path` and the optional owning package `source`. -/
structure Library where
  path : String
  source : Option String
  deriving DecidableEq

/-- Modelled from the spec: `cargo_dist_schema::Library::new`, a library
with no owning package. -/
def Library.new (path : String) : Library :=
  { path := path, source := none }

/-- Modelled from the spec: `cargo_dist_schema::Linkage` (declared
outside the sources at hand) — the report for one (binary, target)
pair, with five sets of libraries partitioned by provenance.  The Rust
sets are modelled as duplicate-free lists (`setInsert`); no claim
depends on their iteration order. -/
structure Linkage where
  binary : Option String
  target : Option String
  system : List Library
  homebrew : List Library
  public_unmanaged : List Library
  frameworks : List Library
  other : List Library
  deriving DecidableEq

/-- Set insertion (`BTreeSet::insert`): adds the element unless already
present. -/
def setInsert (xs : List Library) (x : Library) : List Library :=
  if x ∈ xs then xs else xs ++ [x]

/-- Modelled from the spec: `cargo_dist::Artifact` (declared outside the
sources at hand), restricted to the fields `fetch_linkage` reads — an
identifier, the supported target triples, and the mapping of logical
binary names to file names (iterated as pairs). -/
structure Artifact where
  id : String
  target_triples : List String
  required_binaries : List (String × String)
  deriving DecidableEq

/-- Modelled from the spec: the error taxonomy of §7 (`DistError` lives
in `errors.rs`, outside the sources at hand).
`linkageCheckUnsupportedBinary` is the unsupported-binary error,
`linkageCheckInvalidOS` the wrong-host-OS error; `ioError`, `utf8Error`
and `goblinError` stand for the error conversions used by the `?`
operator on `std::io` failures, `String::from_utf8` failures, and
`goblin` parse failures respectively. -/
inductive DistError where
  | linkageCheckUnsupportedBinary
  | linkageCheckInvalidOS (host : String) (target : String)
  | ioError
  | utf8Error
  | goblinError
  deriving DecidableEq

/-- The dynamic-library load command variants of the `mach_object`
crate that `do_otool` collects names from, plus a catch-all for every
other load command. -/
inductive LoadCommand where
  | idDyLib (name : String)
  | loadDyLib (name : String)
  | loadWeakDyLib (name : String)
  | reexportDyLib (name : String)
  | loadUpwardDylib (name : String)
  | lazyLoadDylib (name : String)
  | otherCommand
  deriving DecidableEq

/-- A parsed Mach-O file (`mach_object::OFile::MachFile`): its load
commands in file order. -/
structure MachFile where
  commands : List LoadCommand
  deriving DecidableEq

/-- A successfully parsed `goblin::Object`: either a PE file with its
imported module names, or some other recognized format. -/
inductive GoblinObject where
  | pe (libraries : List String)
  | otherFormat
  deriving DecidableEq

/-- The effectful surface of the linkage checker, made explicit: host OS
name, filesystem queries, binary parsers, and subprocess results.
A `none` result of `readFile`, `ldd`, `dpkg` or `canonicalize` models
the corresponding `std::io`/spawn failure; `ldd` yields the stdout
after the (total) `String::from_utf8_lossy` decode together with the
exit status, while `dpkg` yields the raw stdout bytes, since
`library_from_apt` decodes them with the fallible `String::from_utf8`; `parseMachO` and
`parseGoblin` return `none` on a parse failure (for `parseMachO`, also
when the parse succeeds but yields something other than a Mach-O file).
`receiptExists` is the `receipt.exists()` test and `receiptTapField`
the outcome of loading and deserializing the receipt and reading
`parsed["source"]["tap"].as_str()`: outer `none` when loading or
parsing fails, `some none` when parsed but the field is not a string. -/
structure Env where
  hostOS : String
  pathExists : String → Bool
  readFile : String → Option (List UInt8)
  parseMachO : List UInt8 → Option MachFile
  parseGoblin : List UInt8 → Option GoblinObject
  ldd : String → Option (String × Int)
  dpkg : String → Option (List UInt8)
  canonicalize : String → Option String
  receiptExists : String → Bool
  receiptTapField : String → Option (Option String)

/-! ## The classifier (`library_from_homebrew`, `library_from_apt`) -/

/-- The receipt-enrichment block of `library_from_homebrew`: an
existing install receipt that loads, parses and records a `source.tap`
other than `homebrew/core` prefixes the package name with the tap; in
every other case (no receipt, unreadable or unparsable receipt, no tap
string, core tap) the bare package name is kept. -/
def brewPackageWithTap (env : Env) (pfxS package : String) : String :=
  let receipt := joinPath (joinPath pfxS package) "INSTALL_RECEIPT.json"
  if env.receiptExists receipt then
    match env.receiptTapField receipt with
    | some (some tap) =>
      if tap ≠ "homebrew/core" then tap ++ "/" ++ package else package
    | some none => package
    | none => package
  else package

/-- Rust's `library_from_homebrew`: create a homebrew library for the given
path.  The two recognized Homebrew prefixes are checked in order; under
a recognized one the first path segment after the prefix is the package
name, enriched by `brewPackageWithTap`; under neither prefix the
library has no source. -/
def library_from_homebrew (env : Env) (library : String) : Library :=
  let brewPfx : Option String :=
    if chStartsWith library "/opt/homebrew/opt/" then some "/opt/homebrew/opt/"
    else if chStartsWith library "/usr/local/opt/" then some "/usr/local/opt/"
    else none
  match brewPfx with
  | some pfxS =>
    let stripped := ⟨library.data.drop pfxS.data.length⟩
    let package := (chSplit "/" stripped).headD ""
    { path := library, source := some (brewPackageWithTap env pfxS package) }
  | none => { path := library, source := none }

/-- Rust's `library_from_apt`: create an apt library for the given path.  On a
non-Linux host the lookup is skipped; on Linux the first colon-delimited
field of the stdout of `dpkg --search` names the package, an empty field
or a failure to run `dpkg` yields no source, and (via the `?` on
`String::from_utf8`) non-UTF-8 stdout is the one propagated error. -/
def library_from_apt (env : Env) (library : String) : Except DistError Library :=
  if env.hostOS ≠ "linux" then
    .ok { path := library, source := none }
  else
    match env.dpkg library with
    | some stdoutBytes =>
      match utf8String stdoutBytes with
      | none => .error .utf8Error
      | some output =>
        let package := (chSplit ":" output).headD ""
        .ok { path := library,
              source := if package = "" then none else some package }
    | none => .ok { path := library, source := none }

/-! ## The inspectors (`do_otool`, `do_ldd`, `do_pe`) -/

/-- The library name carried by a dynamic-library load command, for the
six collected variants. -/
def dylibName : LoadCommand → Option String
  | .idDyLib n => some n
  | .loadDyLib n => some n
  | .loadWeakDyLib n => some n
  | .reexportDyLib n => some n
  | .loadUpwardDylib n => some n
  | .lazyLoadDylib n => some n
  | .otherCommand => none

/-- Rust's `do_otool`: read the file (an open failure propagates), and if it
parses as a Mach-O file collect the names of all dynamic-library load
commands; any parse failure yields the empty list. -/
def do_otool (env : Env) (path : String) : Except DistError (List String) :=
  match env.readFile path with
  | none => .error .ioError
  | some buf =>
    match env.parseMachO buf with
    | some mach => .ok (mach.commands.filterMap dylibName)
    | none => .ok []

/-- The per-line loop of `do_ldd` over the (trimmed-at-the-end, split at
newlines) stdout of `ldd`: stop at a static/non-dynamic marker line,
skip `linux-vdso` lines and lines without a ` => ` separator, and for
dependency lines canonicalize the resolved path and record the result
(a canonicalization failure propagates). -/
def doLddLines (canon : String → Option String) : List String → Except DistError (List String)
  | [] => .ok []
  | l :: ls =>
    if chStartsWith (chTrim l) "not a dynamic executable"
        || chStartsWith (chTrim l) "statically linked" then
      .ok []
    else if chStartsWith (chTrim l) "linux-vdso" then
      doLddLines canon ls
    else
      match (chSplit " => " (chTrim l)).get? 1 with
      | some p =>
        match canon ((chSplit " " p).headD "") with
        | none => .error .ioError
        | some realpath => (doLddLines canon ls).map (fun rest => realpath :: rest)
      | none => doLddLines canon ls

/-- Rust's `do_ldd` applied to the captured output of the `ldd` subprocess:
only stdout is consulted (the exit status, second component, is
ignored — `.check(false)`). -/
def doLddOutput (canon : String → Option String) (out : String × Int) :
    Except DistError (List String) :=
  doLddLines canon (chSplit "\n" (chTrimEnd out.1))

/-- Rust's `do_ldd`: run `ldd` on the binary (a spawn failure propagates) and
parse its stdout line by line. -/
def do_ldd (env : Env) (path : String) : Except DistError (List String) :=
  match env.ldd path with
  | none => .error .ioError
  | some out => doLddOutput env.canonicalize out

/-- Rust's `do_pe`: read the file, parse it with `goblin` (a parse failure
propagates), and return the imported module names of a PE file; any
other successfully parsed format is an unsupported-binary error. -/
def do_pe (env : Env) (path : String) : Except DistError (List String) :=
  match env.readFile path with
  | none => .error .ioError
  | some buf =>
    match env.parseGoblin buf with
    | none => .error .goblinError
    | some (.pe libs) => .ok libs
    | some .otherFormat => .error .linkageCheckUnsupportedBinary

/-! ## `determine_linkage` -/

/-- The provenance buckets of a `Linkage`. -/
inductive Bucket where
  | system
  | homebrew
  | publicUnmanaged
  | frameworks
  | other
  deriving DecidableEq

/-- The library set a bucket names inside a `Linkage`. -/
def bucketGet (l : Linkage) : Bucket → List Library
  | .system => l.system
  | .homebrew => l.homebrew
  | .publicUnmanaged => l.public_unmanaged
  | .frameworks => l.frameworks
  | .other => l.other

/-- Insert a library into the named bucket of a `Linkage`. -/
def insertBucket (l : Linkage) (b : Bucket) (x : Library) : Linkage :=
  match b with
  | .system => { l with system := setInsert l.system x }
  | .homebrew => { l with homebrew := setInsert l.homebrew x }
  | .publicUnmanaged => { l with public_unmanaged := setInsert l.public_unmanaged x }
  | .frameworks => { l with frameworks := setInsert l.frameworks x }
  | .other => { l with other := setInsert l.other x }

/-- The fresh `Linkage` that `determine_linkage` constructs before the
classification loop: binary file name and target recorded, all five
buckets empty. -/
def emptyLinkage (path target : String) : Linkage :=
  { binary := some (fileName path), target := some target,
    system := [], homebrew := [], public_unmanaged := [], frameworks := [], other := [] }

/-- One iteration of the classification loop of `determine_linkage`:
the if-else chain over the raw library path, inserting the resulting
`Library` into the selected bucket.  In the `/usr/local` branch the
path is canonicalized first and a canonicalization failure propagates
(the `?` on `std::fs::canonicalize`). -/
def classifyStep (env : Env) (linkage : Linkage) (library : String) :
    Except DistError Linkage :=
  if chStartsWith library "/opt/homebrew" then
    .ok (insertBucket linkage .homebrew (library_from_homebrew env library))
  else if chStartsWith library "/usr/lib" || chStartsWith library "/lib" then
    (library_from_apt env library).map (insertBucket linkage .system)
  else if chStartsWith library "/System/Library/Frameworks"
      || chStartsWith library "/Library/Frameworks" then
    .ok (insertBucket linkage .frameworks (Library.new library))
  else if chStartsWith library "/usr/local" then
    match env.canonicalize library with
    | none => .error .ioError
    | some real =>
      if chStartsWith real "/usr/local/Cellar" then
        .ok (insertBucket linkage .homebrew (library_from_homebrew env library))
      else
        .ok (insertBucket linkage .publicUnmanaged (Library.new library))
  else
    (library_from_apt env library).map (insertBucket linkage .other)

/-- The whole classification loop of `determine_linkage` over the raw
library list. -/
def classifyAll (env : Env) : Linkage → List String → Except DistError Linkage
  | linkage, [] => .ok linkage
  | linkage, lib :: rest => do
    classifyAll env (← classifyStep env linkage lib) rest

/-- The inspection dispatch of `determine_linkage`: the match on the
target triple selecting `do_otool`, `do_ldd` (guarded by the host-OS
check) or `do_pe`, and rejecting every other triple. -/
def inspect (env : Env) (path : String) (target : String) :
    Except DistError (List String) :=
  match target with
  | "i686-apple-darwin" | "x86_64-apple-darwin" | "aarch64-apple-darwin" =>
    do_otool env path
  | "i686-unknown-linux-gnu" | "x86_64-unknown-linux-gnu" | "aarch64-unknown-linux-gnu"
  | "i686-unknown-linux-musl" | "x86_64-unknown-linux-musl" | "aarch64-unknown-linux-musl" =>
    if env.hostOS ≠ "linux" then
      .error (.linkageCheckInvalidOS env.hostOS target)
    else
      do_ldd env path
  | "i686-pc-windows-msvc" | "x86_64-pc-windows-msvc" | "aarch64-pc-windows-msvc" =>
    do_pe env path
  | _ => .error .linkageCheckUnsupportedBinary

/-- Rust's `determine_linkage`: get the linkage for a single binary — inspect,
then classify every raw library path into the fresh `Linkage`. -/
def determine_linkage (env : Env) (path : String) (target : String) :
    Except DistError Linkage := do
  let libraries ← inspect env path target
  classifyAll env (emptyLinkage path target) libraries

/-! ## `fetch_linkage` -/

/-- The inner loop of `fetch_linkage` over the required binaries of one
artifact.  The first component collects the `eprintln` diagnostics in
emission order; a missing binary is skipped with a diagnostic, and the
`?` on `determine_linkage` aborts with the error. -/
def fetchBins (env : Env) (dirPath target : String) :
    List (String × String) → List String × Except DistError (List Linkage)
  | [] => ([], .ok [])
  | (_, binary) :: rest =>
    let binPath := joinPath dirPath binary
    if env.pathExists binPath then
      match determine_linkage env binPath target with
      | .error e => ([], .error e)
      | .ok l =>
        let r := fetchBins env dirPath target rest
        (r.1, r.2.map (fun ls => l :: ls))
    else
      let r := fetchBins env dirPath target rest
      (("Binary " ++ binPath ++ " missing; skipping check") :: r.1, r.2)

/-- The loop of `fetch_linkage` over the artifacts matching one target:
each artifact's binaries live under `dist_dir/<id>-<target>`. -/
def fetchArts (env : Env) (dist_dir target : String) :
    List Artifact → List String × Except DistError (List Linkage)
  | [] => ([], .ok [])
  | a :: rest =>
    let r₁ := fetchBins env (joinPath dist_dir (a.id ++ "-" ++ target)) target
      a.required_binaries
    match r₁.2 with
    | .error e => (r₁.1, .error e)
    | .ok ls =>
      let r₂ := fetchArts env dist_dir target rest
      (r₁.1 ++ r₂.1, r₂.2.map (fun ls' => ls ++ ls'))

/-- Rust's `fetch_linkage`: iterate the requested targets; a target with no
matching artifact yields a diagnostic and is skipped, otherwise the
matching artifacts are processed in order.  The first component is the
`eprintln` diagnostic log. -/
def fetch_linkage (env : Env) :
    List String → List Artifact → String → List String × Except DistError (List Linkage)
  | [], _, _ => ([], .ok [])
  | target :: ts, artifacts, dist_dir =>
    let matching := artifacts.filter (fun r => r.target_triples.contains target)
    if matching.isEmpty then
      let r := fetch_linkage env ts artifacts dist_dir
      (("No matching artifact for target " ++ target) :: r.1, r.2)
    else
      let r₁ := fetchArts env dist_dir target matching
      match r₁.2 with
      | .error e => (r₁.1, .error e)
      | .ok ls =>
        let r₂ := fetch_linkage env ts artifacts dist_dir
        (r₁.1 ++ r₂.1, r₂.2.map (fun ls' => ls ++ ls'))

/-! ## Claim-side definitions (for comparison against the code) -/

/-- The fixed evaluation order of the claims / spec §4.2, written as the
claim words it (this definition follows the claim's rule list, to be
compared with the branch structure of `classifyStep`): (1) literal
`/opt/homebrew` prefix → homebrew; (2) literal `/usr/lib` or `/lib`
prefix → system; (3) literal Frameworks prefixes → frameworks; (4)
literal `/usr/local` prefix → canonicalize, `Cellar` → homebrew else
public_unmanaged; (5) anything else → other.  `none` when rule (4)
cannot canonicalize. -/
def claimRuleBucket (canon : String → Option String) (lib : String) : Option Bucket :=
  if chStartsWith lib "/opt/homebrew" then some .homebrew
  else if chStartsWith lib "/usr/lib" || chStartsWith lib "/lib" then some .system
  else if chStartsWith lib "/System/Library/Frameworks"
      || chStartsWith lib "/Library/Frameworks" then some .frameworks
  else if chStartsWith lib "/usr/local" then
    match canon lib with
    | none => none
    | some real =>
      some (if chStartsWith real "/usr/local/Cellar" then .homebrew else .publicUnmanaged)
  else some .other

/-- The iteration order claim C9 states for the assembler: targets,
then matching artifacts, then required binaries, one `Linkage` per
successfully inspected existing binary (this definition follows the
claim's words, to be compared with `fetch_linkage`). -/
def claimAssemble (env : Env) (ts : List String) (arts : List Artifact) (dir : String) :
    List Linkage :=
  ts.flatMap fun target =>
    (arts.filter (fun r => r.target_triples.contains target)).flatMap fun a =>
      a.required_binaries.filterMap fun nb =>
        let bp := joinPath (joinPath dir (a.id ++ "-" ++ target)) nb.2
        if env.pathExists bp then (determine_linkage env bp target).toOption else none

/-- The six Linux-family target triples of the dispatch of
`determine_linkage` (claim C6's enumeration). -/
def linuxTriples : List String :=
  ["i686-unknown-linux-gnu", "x86_64-unknown-linux-gnu", "aarch64-unknown-linux-gnu",
   "i686-unknown-linux-musl", "x86_64-unknown-linux-musl", "aarch64-unknown-linux-musl"]

/-- The target-triple vocabulary recognized by the dispatch of
`determine_linkage`, in match order (claim C8's enumeration — which
the claim miscounts as nine values). -/
def recognizedTriples : List String :=
  ["i686-apple-darwin", "x86_64-apple-darwin", "aarch64-apple-darwin",
   "i686-unknown-linux-gnu", "x86_64-unknown-linux-gnu", "aarch64-unknown-linux-gnu",
   "i686-unknown-linux-musl", "x86_64-unknown-linux-musl", "aarch64-unknown-linux-musl",
   "i686-pc-windows-msvc", "x86_64-pc-windows-msvc", "aarch64-pc-windows-msvc"]

/-- Membership of a raw path in a bucket's library set, by the `path`
field (the identity of a `Library` per the spec's data model). -/
def pathMem (p : String) (xs : List Library) : Prop :=
  ∃ l ∈ xs, l.path = p

/-! ## Concrete environments and inputs for witnesses and counterexamples -/

/-- A benign concrete environment: macOS host, every file present and
empty, every parse succeeding trivially, no receipts, no dpkg. -/
def envBase : Env where
  hostOS := "macos"
  pathExists := fun _ => true
  readFile := fun _ => some []
  parseMachO := fun _ => some ⟨[]⟩
  parseGoblin := fun _ => some (.pe [])
  ldd := fun _ => some ("", 0)
  dpkg := fun _ => none
  canonicalize := fun p => some p
  receiptExists := fun _ => false
  receiptTapField := fun _ => none

/-- A macOS environment whose binaries link three libraries, one per
interesting bucket. -/
def envOt : Env :=
  { envBase with
    parseMachO := fun _ => some ⟨[.loadDyLib "/opt/homebrew/opt/zlib/lib/libz.dylib",
      .loadDyLib "/usr/lib/libSystem.B.dylib",
      .loadDyLib "/usr/local/lib/libfoo.dylib"]⟩ }

/-- An environment whose Mach-O parse always fails. -/
def envNoMach : Env :=
  { envBase with parseMachO := fun _ => none }

/-- A Linux host with no working dpkg. -/
def envLinux : Env :=
  { envBase with hostOS := "linux" }

/-- A Linux host whose dpkg lookup answers with a package field. -/
def envApt : Env :=
  { envBase with
    hostOS := "linux",
    dpkg := fun _ => some (asciiBytes "zlib1g: /usr/lib/x.so") }

/-- A Linux host whose dpkg lookup emits one invalid UTF-8 byte. -/
def envAptBad : Env :=
  { envBase with hostOS := "linux", dpkg := fun _ => some [0xFF] }

/-- An environment with an existing install receipt recording a
non-core tap. -/
def envTap : Env :=
  { envBase with
    receiptExists := fun _ => true,
    receiptTapField := fun _ => some (some "acme/tools") }

/-- An environment whose install receipt exists but cannot be read or
parsed. -/
def envReceiptFail : Env :=
  { envBase with receiptExists := fun _ => true, receiptTapField := fun _ => none }

/-- An environment where canonicalization always fails and the binary
links one `/usr/local` library. -/
def envCanonFail : Env :=
  { envBase with
    canonicalize := fun _ => none,
    parseMachO := fun _ => some ⟨[.loadDyLib "/usr/local/lib/libfoo.dylib"]⟩ }

/-- An environment where exactly one binary file is unreadable, so its
inspection fails while the sibling binary's would succeed. -/
def envC2 : Env :=
  { envBase with
    readFile := fun p => if p = "dist/app-x86_64-apple-darwin/bin1" then none else some [] }

/-- The artifact of the `envC2` scenario: one artifact, two required
binaries. -/
def aC2 : Artifact :=
  { id := "app", target_triples := ["x86_64-apple-darwin"],
    required_binaries := [("b1", "bin1"), ("b2", "bin2")] }

/-- The raw library list the `envOt` binaries report. -/
def libsOt : List String :=
  ["/opt/homebrew/opt/zlib/lib/libz.dylib", "/usr/lib/libSystem.B.dylib",
   "/usr/local/lib/libfoo.dylib"]

/-- The `Linkage` value `determine_linkage` computes in the `envOt`
scenario. -/
def linkOt : Linkage :=
  { binary := some "bin", target := some "x86_64-apple-darwin",
    system := [{ path := "/usr/lib/libSystem.B.dylib", source := none }],
    homebrew := [{ path := "/opt/homebrew/opt/zlib/lib/libz.dylib", source := some "zlib" }],
    public_unmanaged := [{ path := "/usr/local/lib/libfoo.dylib", source := none }],
    frameworks := [], other := [] }

/-- A concrete canonicalization oracle that resolves every path by
prefixing `/r`. -/
def canonW : String → Option String :=
  fun s => some ("/r" ++ s)

/-- A Linux environment whose ldd reports a statically linked binary
with nonzero exit status. -/
def envLddW : Env :=
  { envLinux with
    ldd := fun _ => some ("\tstatically linked\n", 1),
    canonicalize := canonW }

/-- An environment where one binary file is missing on disk. -/
def envC9 : Env :=
  { envBase with pathExists := fun p => p != "dist/app-x86_64-apple-darwin/miss" }

/-- The artifact of the `envC9` scenario: one existing and one missing
required binary. -/
def aC9 : Artifact :=
  { id := "app", target_triples := ["x86_64-apple-darwin"],
    required_binaries := [("bin", "bin"), ("m", "miss")] }

/-! ## Claims -/

/-- Dispatch of `library_from_homebrew` under a resolved Homebrew
prefix: the path is kept and the source is the receipt-enriched first
path segment after the prefix. -/
theorem library_from_homebrew_eq (env : Env) (library pfxS : String)
    (hpfx : (chStartsWith library "/opt/homebrew/opt/" = true ∧ pfxS = "/opt/homebrew/opt/") ∨
      (chStartsWith library "/opt/homebrew/opt/" = false ∧
        chStartsWith library "/usr/local/opt/" = true ∧ pfxS = "/usr/local/opt/")) :
    library_from_homebrew env library =
      { path := library, source := some (brewPackageWithTap env pfxS
          ((chSplit "/" (⟨library.data.drop pfxS.data.length⟩ : String)).headD "")) } := by
  rcases hpfx with ⟨h1, rfl⟩ | ⟨h1, h2, rfl⟩
  · simp [library_from_homebrew, h1]
  · simp [library_from_homebrew, h1, h2]

/-- With no receipt, or an unreadable or unparsable receipt, the bare
package name is kept. -/
theorem brewPackageWithTap_bare (env : Env) (pfxS package : String)
    (h : env.receiptExists (joinPath (joinPath pfxS package) "INSTALL_RECEIPT.json") = false ∨
      env.receiptTapField (joinPath (joinPath pfxS package) "INSTALL_RECEIPT.json") = none) :
    brewPackageWithTap env pfxS package = package := by
  rcases h with h | h
  · simp [brewPackageWithTap, h]
  · cases hex : env.receiptExists (joinPath (joinPath pfxS package) "INSTALL_RECEIPT.json") <;>
      simp [brewPackageWithTap, hex, h]

/-- An existing receipt recording a non-core tap prefixes the package
name with the tap. -/
theorem brewPackageWithTap_tap (env : Env) (pfxS package tap : String)
    (hex : env.receiptExists (joinPath (joinPath pfxS package) "INSTALL_RECEIPT.json") = true)
    (htap : env.receiptTapField (joinPath (joinPath pfxS package) "INSTALL_RECEIPT.json") =
      some (some tap))
    (hcore : tap ≠ "homebrew/core") :
    brewPackageWithTap env pfxS package = tap ++ "/" ++ package := by
  simp [brewPackageWithTap, hex, htap, hcore]

/-- Claim C3: for every library path under a known Homebrew prefix,
formula resolution strips the prefix and takes the first remaining path
segment as the package name recorded in `Library.source`; an existing
receipt recording a source tap other than `homebrew/core` prefixes the
package as `tap/package`; a failure to read or parse the receipt is
silently ignored, keeping the bare package name (the path itself is
always preserved). -/
theorem C3_library_from_homebrew (env : Env) (library pfxS : String)
    (hpfx : (chStartsWith library "/opt/homebrew/opt/" = true ∧ pfxS = "/opt/homebrew/opt/") ∨
      (chStartsWith library "/opt/homebrew/opt/" = false ∧
        chStartsWith library "/usr/local/opt/" = true ∧ pfxS = "/usr/local/opt/")) :
    (library_from_homebrew env library).path = library ∧
    (env.receiptExists (joinPath (joinPath pfxS
        ((chSplit "/" (⟨library.data.drop pfxS.data.length⟩ : String)).headD ""))
        "INSTALL_RECEIPT.json") = false →
      (library_from_homebrew env library).source = some
        ((chSplit "/" (⟨library.data.drop pfxS.data.length⟩ : String)).headD "")) ∧
    (env.receiptTapField (joinPath (joinPath pfxS
        ((chSplit "/" (⟨library.data.drop pfxS.data.length⟩ : String)).headD ""))
        "INSTALL_RECEIPT.json") = none →
      (library_from_homebrew env library).source = some
        ((chSplit "/" (⟨library.data.drop pfxS.data.length⟩ : String)).headD "")) ∧
    (∀ tap, env.receiptTapField (joinPath (joinPath pfxS
        ((chSplit "/" (⟨library.data.drop pfxS.data.length⟩ : String)).headD ""))
        "INSTALL_RECEIPT.json") = some (some tap) → tap ≠ "homebrew/core" →
      env.receiptExists (joinPath (joinPath pfxS
        ((chSplit "/" (⟨library.data.drop pfxS.data.length⟩ : String)).headD ""))
        "INSTALL_RECEIPT.json") = true →
      (library_from_homebrew env library).source = some
        (tap ++ "/" ++ ((chSplit "/" (⟨library.data.drop pfxS.data.length⟩ : String)).headD ""))) := by
  have e := library_from_homebrew_eq env library pfxS hpfx
  refine ⟨by rw [e], fun h => ?_, fun h => ?_, fun tap htap hcore hex => ?_⟩
  · rw [e]
    exact congrArg some (brewPackageWithTap_bare env pfxS _ (Or.inl h))
  · rw [e]
    exact congrArg some (brewPackageWithTap_bare env pfxS _ (Or.inr h))
  · rw [e]
    exact congrArg some (brewPackageWithTap_tap env pfxS _ tap hex htap hcore)

/-- Claim C3 witness: the scenario path
`/opt/homebrew/opt/openssl@3/lib/libssl.3.dylib` with no install
receipt yields owning package `openssl@3`; with a receipt from tap
`acme/tools` it yields `acme/tools/openssl@3`; with an unreadable
receipt it keeps `openssl@3`. -/
theorem C3_witness :
    (library_from_homebrew envBase "/opt/homebrew/opt/openssl@3/lib/libssl.3.dylib").path =
      "/opt/homebrew/opt/openssl@3/lib/libssl.3.dylib" ∧
    (library_from_homebrew envBase "/opt/homebrew/opt/openssl@3/lib/libssl.3.dylib").source =
      some "openssl@3" ∧
    (library_from_homebrew envTap "/opt/homebrew/opt/openssl@3/lib/libssl.3.dylib").source =
      some "acme/tools/openssl@3" ∧
    (library_from_homebrew envReceiptFail "/opt/homebrew/opt/openssl@3/lib/libssl.3.dylib").source =
      some "openssl@3" := by
  refine ⟨(C3_library_from_homebrew envBase _ "/opt/homebrew/opt/"
    (Or.inl ⟨by decide, rfl⟩)).1, ?_, ?_, ?_⟩
  · have h := (C3_library_from_homebrew envBase
      "/opt/homebrew/opt/openssl@3/lib/libssl.3.dylib" "/opt/homebrew/opt/"
      (Or.inl ⟨by decide, rfl⟩)).2.1 (by decide)
    rw [h]; decide
  · have h := (C3_library_from_homebrew envTap
      "/opt/homebrew/opt/openssl@3/lib/libssl.3.dylib" "/opt/homebrew/opt/"
      (Or.inl ⟨by decide, rfl⟩)).2.2.2 "acme/tools" (by rfl) (by decide) (by rfl)
    rw [h]; decide
  · have h := (C3_library_from_homebrew envReceiptFail
      "/opt/homebrew/opt/openssl@3/lib/libssl.3.dylib" "/opt/homebrew/opt/"
      (Or.inl ⟨by decide, rfl⟩)).2.2.1 (by rfl)
    rw [h]; decide

/-- Claim C5 counterexample: on a Linux host whose dpkg answers with a
single invalid UTF-8 byte, `library_from_apt` returns an error — the
`?` on `String::from_utf8` propagates — refuting the claim that for
every input path the function returns a `Library` and never an error. -/
theorem C5_counterexample :
    library_from_apt envAptBad "/usr/lib/libfoo.so" = .error .utf8Error := by
  decide

/-- Claim C5 (amended): OS-package resolution is advisory — on a
non-Linux host it is skipped with `source = none`; on Linux the first
colon-delimited field of the dpkg stdout is the package, an empty field
yields `source = none`, a failure to run dpkg yields `source = none`
rather than an error — and for every input path whose dpkg stdout is
valid UTF-8 the function returns a `Library` with that path and never
an error. -/
theorem C5_library_from_apt (env : Env) (library : String) :
    (env.hostOS ≠ "linux" →
      library_from_apt env library = .ok { path := library, source := none }) ∧
    (env.hostOS = "linux" → env.dpkg library = none →
      library_from_apt env library = .ok { path := library, source := none }) ∧
    (∀ bs output, env.hostOS = "linux" → env.dpkg library = some bs →
      utf8String bs = some output →
      library_from_apt env library =
        .ok { path := library,
              source := if (chSplit ":" output).headD "" = "" then none
                else some ((chSplit ":" output).headD "") }) := by
  refine ⟨fun h => ?_, fun h1 h2 => ?_, fun bs output h1 h2 h3 => ?_⟩
  · simp [library_from_apt, h]
  · simp [library_from_apt, h1, h2]
  · simp [library_from_apt, h1, h2, h3]

/-- Claim C5 witness: the three non-error modes at concrete inputs — a
macOS host, a Linux host without dpkg, and a Linux host whose dpkg
answers `zlib1g: /usr/lib/x.so`. -/
theorem C5_witness :
    library_from_apt envBase "/usr/lib/liba.so" =
      .ok { path := "/usr/lib/liba.so", source := none } ∧
    library_from_apt envLinux "/usr/lib/liba.so" =
      .ok { path := "/usr/lib/liba.so", source := none } ∧
    library_from_apt envApt "/usr/lib/x.so" =
      .ok { path := "/usr/lib/x.so",
            source := if (chSplit ":" "zlib1g: /usr/lib/x.so").headD "" = "" then none
              else some ((chSplit ":" "zlib1g: /usr/lib/x.so").headD "") } :=
  ⟨(C5_library_from_apt envBase "/usr/lib/liba.so").1 (by decide),
   (C5_library_from_apt envLinux "/usr/lib/liba.so").2.1 (by rfl) (by rfl),
   (C5_library_from_apt envApt "/usr/lib/x.so").2.2 (asciiBytes "zlib1g: /usr/lib/x.so")
     "zlib1g: /usr/lib/x.so" (by rfl) (by rfl) (by decide)⟩

/-- Claim C7: Mach-O inspection of a readable file that fails to parse
as a Mach-O file returns an empty raw library list, not an error; on a
successfully parsed Mach-O file it collects the library name from every
dynamic-library load command variant (IdDyLib, LoadDyLib,
LoadWeakDyLib, ReexportDyLib, LoadUpwardDylib, LazyLoadDylib). -/
theorem C7_do_otool (env : Env) (path : String) (buf : List UInt8)
    (hread : env.readFile path = some buf) :
    (env.parseMachO buf = none → do_otool env path = .ok []) ∧
    (∀ mach, env.parseMachO buf = some mach →
      do_otool env path = .ok (mach.commands.filterMap dylibName)) ∧
    (∀ n, dylibName (.idDyLib n) = some n ∧ dylibName (.loadDyLib n) = some n ∧
      dylibName (.loadWeakDyLib n) = some n ∧ dylibName (.reexportDyLib n) = some n ∧
      dylibName (.loadUpwardDylib n) = some n ∧ dylibName (.lazyLoadDylib n) = some n) := by
  refine ⟨fun h => ?_, fun mach h => ?_, fun n => ⟨rfl, rfl, rfl, rfl, rfl, rfl⟩⟩
  · simp [do_otool, hread, h]
  · simp [do_otool, hread, h]

/-- Claim C7 witness: a parse-failing file yields the empty list, and a
parsed Mach-O file with three load commands yields their names. -/
theorem C7_witness :
    do_otool envNoMach "bin" = .ok [] ∧
    do_otool envOt "bin" = .ok ((⟨[.loadDyLib "/opt/homebrew/opt/zlib/lib/libz.dylib",
      .loadDyLib "/usr/lib/libSystem.B.dylib",
      .loadDyLib "/usr/local/lib/libfoo.dylib"]⟩ : MachFile).commands.filterMap dylibName) :=
  ⟨(C7_do_otool envNoMach "bin" [] (by rfl)).1 (by rfl),
   (C7_do_otool envOt "bin" [] (by rfl)).2.1 _ (by rfl)⟩

/-- Stopping behavior of the `do_ldd` line loop: a line that (trimmed)
starts with "not a dynamic executable" or "statically linked" ends
processing, yielding exactly what the preceding lines produce. -/
theorem doLddLines_stop (canon : String → Option String) (l : String)
    (hstop : (chStartsWith (chTrim l) "not a dynamic executable"
      || chStartsWith (chTrim l) "statically linked") = true) (rest : List String) :
    ∀ pre, doLddLines canon (pre ++ l :: rest) = doLddLines canon pre := by
  intro pre
  induction pre with
  | nil => simp [doLddLines, hstop]
  | cons p' pre' ih =>
    simp only [List.cons_append, doLddLines]
    split
    · rfl
    · split
      · exact ih
      · split
        · split
          · rfl
          · simp only [List.append_eq]
            rw [ih]
        · exact ih

/-- Claim C4: ELF inspection (`do_ldd`) parses the resolver's stdout
line by line: it stops at the first line starting (after the loop's
trim) with "not a dynamic executable" or "statically linked", yielding
whatever was collected so far — the empty list when such a line comes
first — and not an error; it skips linux-vdso entries; for lines of the
form `name => resolved-path (address)` it extracts the resolved path
(second ` => ` chunk, up to the first space), canonicalizes it and
records the real path; lines without ` => ` are skipped; and the
resolver's exit status is ignored. -/
theorem C4_do_ldd (canon : String → Option String) :
    (∀ s st st', doLddOutput canon (s, st) = doLddOutput canon (s, st')) ∧
    (∀ env path out, Env.ldd env path = some out →
      do_ldd env path = doLddOutput env.canonicalize out) ∧
    (∀ pre l rest,
      (chStartsWith (chTrim l) "not a dynamic executable"
        || chStartsWith (chTrim l) "statically linked") = true →
      doLddLines canon (pre ++ l :: rest) = doLddLines canon pre) ∧
    (∀ l rest,
      (chStartsWith (chTrim l) "not a dynamic executable"
        || chStartsWith (chTrim l) "statically linked") = false →
      chStartsWith (chTrim l) "linux-vdso" = true →
      doLddLines canon (l :: rest) = doLddLines canon rest) ∧
    (∀ l rest p realpath,
      (chStartsWith (chTrim l) "not a dynamic executable"
        || chStartsWith (chTrim l) "statically linked") = false →
      chStartsWith (chTrim l) "linux-vdso" = false →
      (chSplit " => " (chTrim l)).get? 1 = some p →
      canon ((chSplit " " p).headD "") = some realpath →
      doLddLines canon (l :: rest) =
        (doLddLines canon rest).map (fun libs => realpath :: libs)) ∧
    (∀ l rest,
      (chStartsWith (chTrim l) "not a dynamic executable"
        || chStartsWith (chTrim l) "statically linked") = false →
      chStartsWith (chTrim l) "linux-vdso" = false →
      (chSplit " => " (chTrim l)).get? 1 = none →
      doLddLines canon (l :: rest) = doLddLines canon rest) := by
  refine ⟨fun s st st' => rfl, fun env path out h => by simp [do_ldd, h],
    fun pre l rest hstop => doLddLines_stop canon l hstop rest pre,
    fun l rest h1 h2 => by simp [doLddLines, h1, h2],
    fun l rest p realpath h1 h2 h3 h4 => by
      simp only [List.get?_eq_getElem?] at h3
      simp only [List.headD_eq_head?] at h4
      simp [doLddLines, h1, h2, h3, h4],
    fun l rest h1 h2 h3 => by
      simp only [List.get?_eq_getElem?] at h3
      simp [doLddLines, h1, h2, h3]⟩

/-- Claim C4 witness: the statically-linked stop line after one
recorded dependency, a skipped vdso line, a recorded `=>` line with its
canonicalized path, a skipped separator-less line, and indifference to
the exit status, all at concrete inputs. -/
theorem C4_witness :
    doLddOutput canonW ("a", 0) = doLddOutput canonW ("a", 1) ∧
    do_ldd envLddW "bin" = doLddOutput envLddW.canonicalize ("\tstatically linked\n", 1) ∧
    doLddLines canonW (["\tlibz.so.1 => /lib/libz.so.1 (0x1)"] ++
      "  statically linked" :: ["junk"]) =
      doLddLines canonW ["\tlibz.so.1 => /lib/libz.so.1 (0x1)"] ∧
    doLddLines canonW ["\tlinux-vdso.so.1 (0x1)", "x"] = doLddLines canonW ["x"] ∧
    doLddLines canonW ["\tlibz.so.1 => /lib/libz.so.1 (0x1)"] =
      (doLddLines canonW []).map (fun libs => ("/r" ++ "/lib/libz.so.1") :: libs) ∧
    doLddLines canonW ["no such separator here", "y"] = doLddLines canonW ["y"] := by
  refine ⟨(C4_do_ldd canonW).1 "a" 0 1,
    (C4_do_ldd canonW).2.1 envLddW "bin" ("\tstatically linked\n", 1) (by rfl),
    (C4_do_ldd canonW).2.2.1 ["\tlibz.so.1 => /lib/libz.so.1 (0x1)"]
      "  statically linked" ["junk"] (by decide),
    (C4_do_ldd canonW).2.2.2.1 "\tlinux-vdso.so.1 (0x1)" ["x"] (by decide) (by decide),
    (C4_do_ldd canonW).2.2.2.2.1 "\tlibz.so.1 => /lib/libz.so.1 (0x1)" []
      "/lib/libz.so.1 (0x1)" ("/r" ++ "/lib/libz.so.1") (by decide) (by decide)
      (by decide) (by rfl),
    (C4_do_ldd canonW).2.2.2.2.2 "no such separator here" ["y"] (by decide) (by decide)
      (by decide)⟩

/-- Claim C6: for every Linux-family target triple, calling
`determine_linkage` on a host whose OS is not Linux fails with the
wrong-host-OS error — distinct from the unsupported-binary error —
and, the check preceding any subprocess use, the result is the same
under every environment with that host OS (no oracle is consulted). -/
theorem C6_wrong_host (env : Env) (path target : String)
    (ht : target ∈ linuxTriples) (hos : env.hostOS ≠ "linux") :
    determine_linkage env path target =
      .error (.linkageCheckInvalidOS env.hostOS target) ∧
    DistError.linkageCheckInvalidOS env.hostOS target ≠ .linkageCheckUnsupportedBinary ∧
    ∀ env' : Env, env'.hostOS = env.hostOS →
      determine_linkage env' path target = determine_linkage env path target := by
  have main : ∀ e : Env, e.hostOS ≠ "linux" →
      determine_linkage e path target = .error (.linkageCheckInvalidOS e.hostOS target) := by
    intro e he
    simp only [linuxTriples, List.mem_cons, List.not_mem_nil, or_false] at ht
    rcases ht with rfl | rfl | rfl | rfl | rfl | rfl <;>
      simp [determine_linkage, inspect, he, Bind.bind, Except.bind]
  refine ⟨main env hos, fun h => DistError.noConfusion h, fun env' he => ?_⟩
  rw [main env' (by rw [he]; exact hos), main env hos, he]

/-- Claim C6 witness: requesting `x86_64-unknown-linux-gnu` on the
macOS host environment raises the wrong-host-OS error. -/
theorem C6_witness :
    determine_linkage envBase "bin" "x86_64-unknown-linux-gnu" =
      .error (.linkageCheckInvalidOS envBase.hostOS "x86_64-unknown-linux-gnu") :=
  (C6_wrong_host envBase "bin" "x86_64-unknown-linux-gnu" (by decide) (by decide)).1

/-- Claim C8 counterexample: the recognized target-triple vocabulary
that the claim itself enumerates (and that `determine_linkage` matches
on) has twelve values, not nine as the claim states. -/
theorem C8_counterexample :
    recognizedTriples.length = 12 ∧ recognizedTriples.length ≠ 9 := by
  decide

/-- Claim C8 (amended): for every target triple outside the twelve
recognized values, `determine_linkage` fails immediately with the
unsupported-binary error and produces no partial `Linkage` result. -/
theorem C8_unsupported_target (env : Env) (path target : String)
    (h : target ∉ recognizedTriples) :
    determine_linkage env path target = .error .linkageCheckUnsupportedBinary := by
  have hi : inspect env path target = .error .linkageCheckUnsupportedBinary := by
    unfold inspect
    split <;> simp_all [recognizedTriples]
  simp [determine_linkage, hi, Bind.bind, Except.bind]

/-- Claim C8 witness: the unrecognized triple `wasm32-unknown-unknown`
is rejected with the unsupported-binary error. -/
theorem C8_witness :
    determine_linkage envBase "bin" "wasm32-unknown-unknown" =
      .error .linkageCheckUnsupportedBinary :=
  C8_unsupported_target envBase "bin" "wasm32-unknown-unknown" (by decide)

/-- Path-membership through a set insertion. -/
theorem pathMem_setInsert (p : String) (xs : List Library) (x : Library) :
    pathMem p (setInsert xs x) ↔ pathMem p xs ∨ p = x.path := by
  by_cases hmem : x ∈ xs
  · rw [setInsert, if_pos hmem]
    constructor
    · exact Or.inl
    · rintro (h | rfl)
      · exact h
      · exact ⟨x, hmem, rfl⟩
  · rw [setInsert, if_neg hmem]
    constructor
    · rintro ⟨l, hl, rfl⟩
      rcases List.mem_append.1 hl with h | h
      · exact Or.inl ⟨l, h, rfl⟩
      · rcases List.mem_singleton.1 h with rfl
        exact Or.inr rfl
    · rintro (⟨l, hl, rfl⟩ | rfl)
      · exact ⟨l, List.mem_append_left _ hl, rfl⟩
      · exact ⟨x, List.mem_append_right _ (List.mem_singleton_self x), rfl⟩

/-- Reading a bucket after inserting into a (possibly different)
bucket. -/
theorem bucketGet_insertBucket (l : Linkage) (b b' : Bucket) (x : Library) :
    bucketGet (insertBucket l b x) b' =
      if b' = b then setInsert (bucketGet l b) x else bucketGet l b' := by
  cases b <;> cases b' <;> rfl

/-- The library built by `library_from_homebrew` keeps the input
path. -/
theorem library_from_homebrew_path (env : Env) (lib : String) :
    (library_from_homebrew env lib).path = lib := by
  simp only [library_from_homebrew]
  split <;> rfl

/-- The library built by a successful `library_from_apt` keeps the
input path. -/
theorem library_from_apt_path (env : Env) (lib : String) (l : Library)
    (h : library_from_apt env lib = .ok l) : l.path = lib := by
  unfold library_from_apt at h
  split at h
  · injection h with h
    subst h
    rfl
  · split at h
    · split at h
      · cases h
      · injection h with h
        subst h
        rfl
    · injection h with h
      subst h
      rfl

/-- One successful iteration of the classification loop inserts one
library, whose path is the raw path, into exactly the bucket the
claim's first-match rule list selects. -/
theorem classifyStep_ok (env : Env) (L : Linkage) (lib : String) (L' : Linkage)
    (h : classifyStep env L lib = .ok L') :
    ∃ b x, claimRuleBucket env.canonicalize lib = some b ∧ x.path = lib ∧
      L' = insertBucket L b x := by
  unfold classifyStep at h
  by_cases h1 : chStartsWith lib "/opt/homebrew" = true
  · rw [if_pos h1] at h
    injection h with h
    subst h
    exact ⟨.homebrew, library_from_homebrew env lib, by simp [claimRuleBucket, h1],
      library_from_homebrew_path env lib, rfl⟩
  · rw [if_neg h1] at h
    by_cases h2 : (chStartsWith lib "/usr/lib" || chStartsWith lib "/lib") = true
    · rw [if_pos h2] at h
      cases happt : library_from_apt env lib with
      | error e =>
        rw [happt] at h
        cases h
      | ok la =>
        rw [happt] at h
        injection h with h
        subst h
        exact ⟨.system, la, by simp [claimRuleBucket, h1, h2],
          library_from_apt_path env lib la happt, rfl⟩
    · rw [if_neg h2] at h
      by_cases h3 : (chStartsWith lib "/System/Library/Frameworks"
          || chStartsWith lib "/Library/Frameworks") = true
      · rw [if_pos h3] at h
        injection h with h
        subst h
        exact ⟨.frameworks, Library.new lib, by simp [claimRuleBucket, h1, h2, h3], rfl, rfl⟩
      · rw [if_neg h3] at h
        by_cases h4 : chStartsWith lib "/usr/local" = true
        · rw [if_pos h4] at h
          cases hcanon : env.canonicalize lib with
          | none =>
            rw [hcanon] at h
            cases h
          | some real =>
            rw [hcanon] at h
            dsimp only at h
            by_cases h5 : chStartsWith real "/usr/local/Cellar" = true
            · rw [if_pos h5] at h
              injection h with h
              subst h
              exact ⟨.homebrew, library_from_homebrew env lib,
                by simp [claimRuleBucket, h1, h2, h3, h4, hcanon, h5],
                library_from_homebrew_path env lib, rfl⟩
            · rw [if_neg h5] at h
              injection h with h
              subst h
              exact ⟨.publicUnmanaged, Library.new lib,
                by simp [claimRuleBucket, h1, h2, h3, h4, hcanon, h5], rfl, rfl⟩
        · rw [if_neg h4] at h
          cases happt : library_from_apt env lib with
          | error e =>
            rw [happt] at h
            cases h
          | ok la =>
            rw [happt] at h
            injection h with h
            subst h
            exact ⟨.other, la, by simp [claimRuleBucket, h1, h2, h3, h4],
              library_from_apt_path env lib la happt, rfl⟩

/-- Membership invariant of the classification loop: a path sits in a
bucket of the result exactly when it sat there initially or is a
processed raw path whose first-match rule selects that bucket. -/
theorem classifyAll_pathMem (env : Env) :
    ∀ (libs : List String) (L₀ L : Linkage), classifyAll env L₀ libs = .ok L →
    ∀ (p : String) (b : Bucket), pathMem p (bucketGet L b) ↔
      (pathMem p (bucketGet L₀ b) ∨
        (p ∈ libs ∧ claimRuleBucket env.canonicalize p = some b)) := by
  intro libs
  induction libs with
  | nil =>
    intro L₀ L h p b
    unfold classifyAll at h
    injection h with h
    subst h
    simp
  | cons lib rest ih =>
    intro L₀ L h p b
    unfold classifyAll at h
    cases hstep : classifyStep env L₀ lib with
    | error e =>
      rw [hstep] at h
      cases h
    | ok L₁ =>
      rw [hstep] at h
      simp only [Bind.bind, Except.bind] at h
      have hmem := ih L₁ L h p b
      obtain ⟨b₀, x, hclaim, hxpath, rfl⟩ := classifyStep_ok env L₀ lib L₁ hstep
      rw [hmem, bucketGet_insertBucket]
      simp only [List.mem_cons]
      by_cases hb : b = b₀
      · subst hb
        rw [if_pos rfl, pathMem_setInsert, hxpath]
        constructor
        · rintro ((h | rfl) | ⟨h1, h2⟩)
          · exact Or.inl h
          · exact Or.inr ⟨Or.inl rfl, hclaim⟩
          · exact Or.inr ⟨Or.inr h1, h2⟩
        · rintro (h | ⟨rfl | h1, h2⟩)
          · exact Or.inl (Or.inl h)
          · exact Or.inl (Or.inr rfl)
          · exact Or.inr ⟨h1, h2⟩
      · rw [if_neg hb]
        constructor
        · rintro (h | ⟨h1, h2⟩)
          · exact Or.inl h
          · exact Or.inr ⟨Or.inr h1, h2⟩
        · rintro (h | ⟨rfl | h1, h2⟩)
          · exact Or.inl h
          · rw [hclaim] at h2
            injection h2 with h2
            exact absurd h2.symm hb
          · exact Or.inr ⟨h1, h2⟩

/-- A successfully classified raw path has a first-match rule
bucket. -/
theorem classifyAll_ok_claim (env : Env) :
    ∀ (libs : List String) (L₀ L : Linkage), classifyAll env L₀ libs = .ok L →
    ∀ lib ∈ libs, ∃ b, claimRuleBucket env.canonicalize lib = some b := by
  intro libs
  induction libs with
  | nil =>
    intro L₀ L _ lib hlib
    cases hlib
  | cons l rest ih =>
    intro L₀ L h lib hlib
    unfold classifyAll at h
    cases hstep : classifyStep env L₀ l with
    | error e =>
      rw [hstep] at h
      cases h
    | ok L₁ =>
      rw [hstep] at h
      simp only [Bind.bind, Except.bind] at h
      rcases List.mem_cons.1 hlib with rfl | hmem
      · obtain ⟨b, x, hclaim, _, _⟩ := classifyStep_ok env L₀ lib L₁ hstep
        exact ⟨b, hclaim⟩
      · exact ih L₁ L h lib hmem

/-- Claim C1: every raw library path produced by the inspector for a
binary whose `determine_linkage` succeeds lands in exactly one of the
five buckets of the resulting `Linkage`, namely the bucket selected by
the first matching rule of the fixed evaluation order (literal-prefix
checks, with canonicalization only in the `/usr/local` branch), as
encoded by `claimRuleBucket`. -/
theorem C1_classification (env : Env) (path target : String) (libs : List String)
    (L : Linkage) (hins : inspect env path target = .ok libs)
    (hdet : determine_linkage env path target = .ok L) :
    ∀ lib ∈ libs, ∃ b, claimRuleBucket env.canonicalize lib = some b ∧
      pathMem lib (bucketGet L b) ∧ ∀ b', pathMem lib (bucketGet L b') → b' = b := by
  have hclass : classifyAll env (emptyLinkage path target) libs = .ok L := by
    unfold determine_linkage at hdet
    rw [hins] at hdet
    simpa [Bind.bind, Except.bind] using hdet
  intro lib hlib
  obtain ⟨b, hb⟩ := classifyAll_ok_claim env libs _ L hclass lib hlib
  refine ⟨b, hb, ?_, ?_⟩
  · rw [classifyAll_pathMem env libs _ L hclass lib b]
    exact Or.inr ⟨hlib, hb⟩
  · intro b' hb'
    rw [classifyAll_pathMem env libs _ L hclass lib b'] at hb'
    rcases hb' with h | ⟨_, hc⟩
    · cases b' <;> simp [emptyLinkage, bucketGet, pathMem] at h
    · rw [hb] at hc
      injection hc with hc
      exact hc.symm

/-- Claim C1 witness: in the `envOt` scenario the homebrew-prefixed
raw path lands in the homebrew bucket of the computed `Linkage` and in
no other bucket. -/
theorem C1_witness :
    ∃ b, claimRuleBucket envOt.canonicalize "/opt/homebrew/opt/zlib/lib/libz.dylib" = some b ∧
      pathMem "/opt/homebrew/opt/zlib/lib/libz.dylib" (bucketGet linkOt b) ∧
      ∀ b', pathMem "/opt/homebrew/opt/zlib/lib/libz.dylib" (bucketGet linkOt b') → b' = b :=
  C1_classification envOt "dist/app-t/bin" "x86_64-apple-darwin" libsOt linkOt
    (by decide) (by decide) "/opt/homebrew/opt/zlib/lib/libz.dylib" (by decide)

/-- A path under `/usr/local` matches none of the earlier literal
prefix rules of the classification chain. -/
theorem usrLocal_not_earlier (lib : String) (h : chStartsWith lib "/usr/local" = true) :
    chStartsWith lib "/opt/homebrew" = false ∧
    (chStartsWith lib "/usr/lib" || chStartsWith lib "/lib") = false ∧
    (chStartsWith lib "/System/Library/Frameworks"
      || chStartsWith lib "/Library/Frameworks") = false := by
  unfold chStartsWith at h ⊢
  rw [ List.isPrefixOf_iff_prefix] at h
  obtain ⟨t, ht⟩ := h
  refine ⟨?_, ?_, ?_⟩ <;> rw [← ht] <;> simp [List.isPrefixOf]

/-- Claim C10: classifying a raw library path under `/usr/local` whose
canonicalization fails (for example because the path does not exist on
the inspecting host) makes the classification step fail with the I/O
error, the whole classification loop fail, and the enclosing
`determine_linkage` call fail with no `Linkage` produced at all. -/
theorem C10_usr_local_io (env : Env) (lib : String)
    (h1 : chStartsWith lib "/usr/local" = true) (h2 : env.canonicalize lib = none) :
    (∀ L, classifyStep env L lib = .error .ioError) ∧
    (∀ (libs : List String) (L₀ : Linkage), lib ∈ libs →
      ∀ L, classifyAll env L₀ libs ≠ .ok L) ∧
    (∀ path target, inspect env path target = .ok [lib] →
      determine_linkage env path target = .error .ioError) ∧
    (∀ path target libs, inspect env path target = .ok libs → lib ∈ libs →
      ∀ L, determine_linkage env path target ≠ .ok L) := by
  obtain ⟨e1, e2, e3⟩ := usrLocal_not_earlier lib h1
  have hstep : ∀ L, classifyStep env L lib = .error .ioError := by
    intro L
    unfold classifyStep
    rw [if_neg (by simp [e1]), if_neg (by simp [e2]), if_neg (by simp [e3]),
      if_pos h1, h2]
  have hall : ∀ (libs : List String) (L₀ : Linkage), lib ∈ libs →
      ∀ L, classifyAll env L₀ libs ≠ .ok L := by
    intro libs
    induction libs with
    | nil =>
      intro L₀ h
      cases h
    | cons l rest ih =>
      intro L₀ hmem L hok
      unfold classifyAll at hok
      rcases List.mem_cons.1 hmem with rfl | hmem'
      · rw [hstep L₀] at hok
        cases hok
      · cases hs : classifyStep env L₀ l with
        | error e =>
          rw [hs] at hok
          cases hok
        | ok L₁ =>
          rw [hs] at hok
          simp only [Bind.bind, Except.bind] at hok
          exact ih L₁ hmem' L hok
  refine ⟨hstep, hall, ?_, ?_⟩
  · intro path target hins
    unfold determine_linkage
    rw [hins]
    simp only [Bind.bind, Except.bind]
    unfold classifyAll
    rw [hstep]
    rfl
  · intro path target libs hins hmem L hok
    unfold determine_linkage at hok
    rw [hins] at hok
    simp only [Bind.bind, Except.bind] at hok
    exact hall libs _ hmem L hok

/-- Claim C10 witness: in the `envCanonFail` scenario — one linked
`/usr/local` library, canonicalization failing — the classification
step and the whole `determine_linkage` call fail with the I/O error. -/
theorem C10_witness :
    classifyStep envCanonFail (emptyLinkage "bin" "x86_64-apple-darwin")
      "/usr/local/lib/libfoo.dylib" = .error .ioError ∧
    determine_linkage envCanonFail "bin" "x86_64-apple-darwin" = .error .ioError :=
  ⟨(C10_usr_local_io envCanonFail "/usr/local/lib/libfoo.dylib" (by decide) (by rfl)).1
      (emptyLinkage "bin" "x86_64-apple-darwin"),
   (C10_usr_local_io envCanonFail "/usr/local/lib/libfoo.dylib" (by decide) (by rfl)).2.2.1
      "bin" "x86_64-apple-darwin" (by decide)⟩

/-- A successful inner binary loop returns exactly one `Linkage` per
existing, successfully inspected binary, in iteration order. -/
theorem fetchBins_ok (env : Env) (dirPath target : String) :
    ∀ (bins : List (String × String)) (log : List String) (ls : List Linkage),
    fetchBins env dirPath target bins = (log, .ok ls) →
    ls = bins.filterMap (fun nb =>
      if env.pathExists (joinPath dirPath nb.2) then
        (determine_linkage env (joinPath dirPath nb.2) target).toOption
      else none) := by
  intro bins
  induction bins with
  | nil =>
    intro log ls h
    simp only [fetchBins] at h
    injection h with h1 h2
    injection h2 with h2
    subst h2
    simp
  | cons nb rest ih =>
    intro log ls h
    obtain ⟨name, binary⟩ := nb
    simp only [fetchBins] at h
    by_cases hex : env.pathExists (joinPath dirPath binary) = true
    · rw [if_pos hex] at h
      cases hdet : determine_linkage env (joinPath dirPath binary) target with
      | error e =>
        rw [hdet] at h
        injection h with h1 h2
        cases h2
      | ok l =>
        rw [hdet] at h
        rcases hr : fetchBins env dirPath target rest with ⟨log', res⟩
        rw [hr] at h
        injection h with h1 h2
        cases res with
        | error e => cases h2
        | ok ls' =>
          simp only [Except.map] at h2
          injection h2 with h2
          subst h2
          have hf : (if env.pathExists (joinPath dirPath binary) = true then
              (determine_linkage env (joinPath dirPath binary) target).toOption
            else none) = some l := by
            rw [if_pos hex, hdet]
            rfl
          simp [List.filterMap_cons, hf, ih log' ls' hr]
    · rw [if_neg hex] at h
      rcases hr : fetchBins env dirPath target rest with ⟨log', res⟩
      rw [hr] at h
      injection h with h1 h2
      cases res with
      | error e => cases h2
      | ok ls' =>
        injection h2 with h2
        subst h2
        have hf : (if env.pathExists (joinPath dirPath binary) = true then
            (determine_linkage env (joinPath dirPath binary) target).toOption
          else none) = none := by
          rw [if_neg hex]
        simp [List.filterMap_cons, hf, ih log' ls' hr]

/-- A successful artifact loop concatenates the per-artifact results in
iteration order. -/
theorem fetchArts_ok (env : Env) (dist_dir target : String) :
    ∀ (arts : List Artifact) (log : List String) (ls : List Linkage),
    fetchArts env dist_dir target arts = (log, .ok ls) →
    ls = arts.flatMap (fun a => a.required_binaries.filterMap (fun nb =>
      if env.pathExists (joinPath (joinPath dist_dir (a.id ++ "-" ++ target)) nb.2) then
        (determine_linkage env (joinPath (joinPath dist_dir (a.id ++ "-" ++ target)) nb.2)
          target).toOption
      else none)) := by
  intro arts
  induction arts with
  | nil =>
    intro log ls h
    simp only [fetchArts] at h
    injection h with h1 h2
    injection h2 with h2
    subst h2
    simp
  | cons a rest ih =>
    intro log ls h
    simp only [fetchArts] at h
    rcases hr1 : fetchBins env (joinPath dist_dir (a.id ++ "-" ++ target)) target
        a.required_binaries with ⟨log1, res1⟩
    rw [hr1] at h
    cases res1 with
    | error e =>
      injection h with h1 h2
      cases h2
    | ok ls1 =>
      dsimp only at h
      rcases hr2 : fetchArts env dist_dir target rest with ⟨log2, res2⟩
      rw [hr2] at h
      injection h with h1 h2
      cases res2 with
      | error e => cases h2
      | ok ls2 =>
        simp only [Except.map] at h2
        injection h2 with h2
        subst h2
        rw [List.flatMap_cons, ← fetchBins_ok env _ target a.required_binaries log1 ls1 hr1,
          ← ih log2 ls2 hr2]

/-- A successful batch is exactly the claim-side assembly
(`claimAssemble`): targets, then matching artifacts, then required
binaries, in order. -/
theorem fetch_linkage_ok (env : Env) :
    ∀ (ts : List String) (arts : List Artifact) (dir : String)
      (log : List String) (ls : List Linkage),
    fetch_linkage env ts arts dir = (log, .ok ls) →
    ls = claimAssemble env ts arts dir := by
  intro ts
  induction ts with
  | nil =>
    intro arts dir log ls h
    simp only [fetch_linkage] at h
    injection h with h1 h2
    injection h2 with h2
    subst h2
    simp [claimAssemble]
  | cons t ts ih =>
    intro arts dir log ls h
    simp only [fetch_linkage] at h
    by_cases hemp : (arts.filter (fun r => r.target_triples.contains t)).isEmpty = true
    · rw [if_pos hemp] at h
      rcases hr : fetch_linkage env ts arts dir with ⟨log', res⟩
      rw [hr] at h
      injection h with h1 h2
      cases res with
      | error e => cases h2
      | ok ls' =>
        injection h2 with h2
        subst h2
        have hnil := List.isEmpty_iff.1 hemp
        rw [ih arts dir log' ls' hr]
        simp only [claimAssemble, List.flatMap_cons, hnil, List.flatMap_nil,
          List.nil_append]
    · rw [if_neg hemp] at h
      rcases hr1 : fetchArts env dir t (arts.filter (fun r => r.target_triples.contains t))
        with ⟨log1, res1⟩
      rw [hr1] at h
      cases res1 with
      | error e =>
        injection h with h1 h2
        cases h2
      | ok ls1 =>
        dsimp only at h
        rcases hr2 : fetch_linkage env ts arts dir with ⟨log2, res2⟩
        rw [hr2] at h
        injection h with h1 h2
        cases res2 with
        | error e => cases h2
        | ok ls2 =>
          simp only [Except.map] at h2
          injection h2 with h2
          subst h2
          have e1 := fetchArts_ok env dir t _ log1 ls1 hr1
          have e2 := ih arts dir log2 ls2 hr2
          rw [e1, e2]
          simp [claimAssemble, List.flatMap_cons]

/-- Claim C9: the assembler iterates targets, then matching artifacts,
then required binaries, in that order; a target with no matching
artifact yields a diagnostic and zero entries without failing the
batch; a missing binary file yields a diagnostic and is skipped; every
successfully inspected binary contributes exactly one `Linkage`,
appended in iteration order (a successful batch equals
`claimAssemble`). -/
theorem C9_fetch_linkage (env : Env) :
    (∀ target ts arts dir,
      (arts.filter (fun r => r.target_triples.contains target)).isEmpty = true →
      fetch_linkage env (target :: ts) arts dir =
        (("No matching artifact for target " ++ target) ::
            (fetch_linkage env ts arts dir).1,
          (fetch_linkage env ts arts dir).2)) ∧
    (∀ dirPath target name binary rest,
      env.pathExists (joinPath dirPath binary) = false →
      fetchBins env dirPath target ((name, binary) :: rest) =
        (("Binary " ++ joinPath dirPath binary ++ " missing; skipping check") ::
            (fetchBins env dirPath target rest).1,
          (fetchBins env dirPath target rest).2)) ∧
    (∀ dirPath target name binary rest l,
      env.pathExists (joinPath dirPath binary) = true →
      determine_linkage env (joinPath dirPath binary) target = .ok l →
      fetchBins env dirPath target ((name, binary) :: rest) =
        ((fetchBins env dirPath target rest).1,
          (fetchBins env dirPath target rest).2.map (fun ls => l :: ls))) ∧
    (∀ ts arts dir log ls, fetch_linkage env ts arts dir = (log, .ok ls) →
      ls = claimAssemble env ts arts dir) := by
  refine ⟨fun target ts arts dir hemp => ?_, fun dirPath target name binary rest hex => ?_,
    fun dirPath target name binary rest l hex hdet => ?_,
    fun ts arts dir log ls h => fetch_linkage_ok env ts arts dir log ls h⟩
  · simp only [fetch_linkage]
    rw [if_pos hemp]
  · simp only [fetchBins]
    rw [if_neg (by simp [hex])]
  · simp only [fetchBins]
    rw [if_pos hex, hdet]

/-- Claim C9 witness: the `envC9` scenario — an unmatched target, a
missing binary skipped with a diagnostic, an existing binary
contributing one entry, and the successful batch equalling the
claim-side assembly. -/
theorem C9_witness :
    fetch_linkage envC9 ("other-target" :: ["x86_64-apple-darwin"]) [aC9] "dist" =
      (("No matching artifact for target " ++ "other-target") ::
          (fetch_linkage envC9 ["x86_64-apple-darwin"] [aC9] "dist").1,
        (fetch_linkage envC9 ["x86_64-apple-darwin"] [aC9] "dist").2) ∧
    fetchBins envC9 "dist/app-x86_64-apple-darwin" "x86_64-apple-darwin" (("m", "miss") :: []) =
      (("Binary " ++ joinPath "dist/app-x86_64-apple-darwin" "miss"
          ++ " missing; skipping check") ::
          (fetchBins envC9 "dist/app-x86_64-apple-darwin" "x86_64-apple-darwin" []).1,
        (fetchBins envC9 "dist/app-x86_64-apple-darwin" "x86_64-apple-darwin" []).2) ∧
    fetchBins envC9 "dist/app-x86_64-apple-darwin" "x86_64-apple-darwin" (("bin", "bin") :: []) =
      ((fetchBins envC9 "dist/app-x86_64-apple-darwin" "x86_64-apple-darwin" []).1,
        (fetchBins envC9 "dist/app-x86_64-apple-darwin" "x86_64-apple-darwin" []).2.map
          (fun ls => emptyLinkage "dist/app-x86_64-apple-darwin/bin" "x86_64-apple-darwin" :: ls)) ∧
    [emptyLinkage "dist/app-x86_64-apple-darwin/bin" "x86_64-apple-darwin"] =
      claimAssemble envC9 ["x86_64-apple-darwin"] [aC9] "dist" :=
  ⟨(C9_fetch_linkage envC9).1 "other-target" ["x86_64-apple-darwin"] [aC9] "dist" (by decide),
   (C9_fetch_linkage envC9).2.1 "dist/app-x86_64-apple-darwin" "x86_64-apple-darwin"
     "m" "miss" [] (by decide),
   (C9_fetch_linkage envC9).2.2.1 "dist/app-x86_64-apple-darwin" "x86_64-apple-darwin"
     "bin" "bin" [] (emptyLinkage "dist/app-x86_64-apple-darwin/bin" "x86_64-apple-darwin")
     (by decide) (by decide),
   (C9_fetch_linkage envC9).2.2.2 ["x86_64-apple-darwin"] [aC9] "dist"
     ["Binary dist/app-x86_64-apple-darwin/miss missing; skipping check"]
     [emptyLinkage "dist/app-x86_64-apple-darwin/bin" "x86_64-apple-darwin"] (by decide)⟩

/-- Claim C2 counterexample: in the `envC2` scenario the first
binary's inspection fails, and `fetch_linkage` aborts the whole batch
with that error, returning no `Linkage` at all — even though the
second binary's inspection would have succeeded.  This refutes the
claim that the batch is not aborted and other binaries' `Linkage`
values are still produced. -/
theorem C2_counterexample :
    fetch_linkage envC2 ["x86_64-apple-darwin"] [aC2] "dist" = ([], .error .ioError) ∧
    determine_linkage envC2 "dist/app-x86_64-apple-darwin/bin2" "x86_64-apple-darwin" =
      .ok (emptyLinkage "dist/app-x86_64-apple-darwin/bin2" "x86_64-apple-darwin") := by
  exact ⟨by decide, by decide⟩

/-- A successful inner binary loop implies every existing binary's
inspection succeeded. -/
theorem fetchBins_ok_inspect (env : Env) (dirPath target : String) :
    ∀ (bins : List (String × String)) (log : List String) (ls : List Linkage),
    fetchBins env dirPath target bins = (log, .ok ls) →
    ∀ nb ∈ bins, env.pathExists (joinPath dirPath nb.2) = true →
    ∃ l, determine_linkage env (joinPath dirPath nb.2) target = .ok l := by
  intro bins
  induction bins with
  | nil =>
    intro log ls _ nb hnb
    cases hnb
  | cons nb0 rest ih =>
    intro log ls h nb hnb hex
    obtain ⟨name, binary⟩ := nb0
    simp only [fetchBins] at h
    by_cases hex0 : env.pathExists (joinPath dirPath binary) = true
    · rw [if_pos hex0] at h
      cases hdet : determine_linkage env (joinPath dirPath binary) target with
      | error e =>
        rw [hdet] at h
        injection h with h1 h2
        cases h2
      | ok l =>
        rw [hdet] at h
        rcases hr : fetchBins env dirPath target rest with ⟨log', res⟩
        rw [hr] at h
        injection h with h1 h2
        cases res with
        | error e => cases h2
        | ok ls' =>
          rcases List.mem_cons.1 hnb with rfl | hmem
          · exact ⟨l, hdet⟩
          · exact ih log' ls' hr nb hmem hex
    · rw [if_neg hex0] at h
      rcases hr : fetchBins env dirPath target rest with ⟨log', res⟩
      rw [hr] at h
      injection h with h1 h2
      cases res with
      | error e => cases h2
      | ok ls' =>
        rcases List.mem_cons.1 hnb with rfl | hmem
        · exact absurd hex hex0
        · exact ih log' ls' hr nb hmem hex

/-- A successful artifact loop implies every existing binary's
inspection succeeded. -/
theorem fetchArts_ok_inspect (env : Env) (dist_dir target : String) :
    ∀ (arts : List Artifact) (log : List String) (ls : List Linkage),
    fetchArts env dist_dir target arts = (log, .ok ls) →
    ∀ a ∈ arts, ∀ nb ∈ a.required_binaries,
    env.pathExists (joinPath (joinPath dist_dir (a.id ++ "-" ++ target)) nb.2) = true →
    ∃ l, determine_linkage env
      (joinPath (joinPath dist_dir (a.id ++ "-" ++ target)) nb.2) target = .ok l := by
  intro arts
  induction arts with
  | nil =>
    intro log ls _ a ha
    cases ha
  | cons a0 rest ih =>
    intro log ls h a ha nb hnb hex
    simp only [fetchArts] at h
    rcases hr1 : fetchBins env (joinPath dist_dir (a0.id ++ "-" ++ target)) target
        a0.required_binaries with ⟨log1, res1⟩
    rw [hr1] at h
    cases res1 with
    | error e =>
      injection h with h1 h2
      cases h2
    | ok ls1 =>
      dsimp only at h
      rcases hr2 : fetchArts env dist_dir target rest with ⟨log2, res2⟩
      rw [hr2] at h
      injection h with h1 h2
      cases res2 with
      | error e => cases h2
      | ok ls2 =>
        rcases List.mem_cons.1 ha with rfl | hmem
        · exact fetchBins_ok_inspect env _ target a.required_binaries log1 ls1 hr1 nb hnb hex
        · exact ih log2 ls2 hr2 a hmem nb hnb hex

/-- A successful batch implies every encountered inspection
succeeded. -/
theorem fetch_linkage_ok_inspect (env : Env) :
    ∀ (ts : List String) (arts : List Artifact) (dir : String)
      (log : List String) (ls : List Linkage),
    fetch_linkage env ts arts dir = (log, .ok ls) →
    ∀ t ∈ ts, ∀ a ∈ arts.filter (fun r => r.target_triples.contains t),
    ∀ nb ∈ a.required_binaries,
    env.pathExists (joinPath (joinPath dir (a.id ++ "-" ++ t)) nb.2) = true →
    ∃ l, determine_linkage env (joinPath (joinPath dir (a.id ++ "-" ++ t)) nb.2) t = .ok l := by
  intro ts
  induction ts with
  | nil =>
    intro arts dir log ls _ t ht
    cases ht
  | cons t0 ts ih =>
    intro arts dir log ls h t ht a ha nb hnb hex
    simp only [fetch_linkage] at h
    by_cases hemp : (arts.filter (fun r => r.target_triples.contains t0)).isEmpty = true
    · rw [if_pos hemp] at h
      rcases hr : fetch_linkage env ts arts dir with ⟨log', res⟩
      rw [hr] at h
      injection h with h1 h2
      cases res with
      | error e => cases h2
      | ok ls' =>
        rcases List.mem_cons.1 ht with rfl | hmem
        · rw [List.isEmpty_iff.1 hemp] at ha
          cases ha
        · exact ih arts dir log' ls' hr t hmem a ha nb hnb hex
    · rw [if_neg hemp] at h
      rcases hr1 : fetchArts env dir t0 (arts.filter (fun r => r.target_triples.contains t0))
        with ⟨log1, res1⟩
      rw [hr1] at h
      cases res1 with
      | error e =>
        injection h with h1 h2
        cases h2
      | ok ls1 =>
        dsimp only at h
        rcases hr2 : fetch_linkage env ts arts dir with ⟨log2, res2⟩
        rw [hr2] at h
        injection h with h1 h2
        cases res2 with
        | error e => cases h2
        | ok ls2 =>
          rcases List.mem_cons.1 ht with rfl | hmem
          · exact fetchArts_ok_inspect env dir t _ log1 ls1 hr1 a ha nb hnb hex
          · exact ih arts dir log2 ls2 hr2 t hmem a ha nb hnb hex

/-- Claim C2 (amended): when `determine_linkage` fails for one binary,
the error propagates through `fetch_linkage` — the inner loop returns
exactly that error and nothing else, and a batch can only return `ok`
when every encountered inspection succeeded, so one failure aborts the
whole batch and no `Linkage` values are returned for the other
binaries or targets. -/
theorem C2_batch_abort (env : Env) :
    (∀ dirPath target name binary rest e,
      env.pathExists (joinPath dirPath binary) = true →
      determine_linkage env (joinPath dirPath binary) target = .error e →
      fetchBins env dirPath target ((name, binary) :: rest) = ([], .error e)) ∧
    (∀ ts arts dir log ls, fetch_linkage env ts arts dir = (log, .ok ls) →
      ∀ t ∈ ts, ∀ a ∈ arts.filter (fun r => r.target_triples.contains t),
      ∀ nb ∈ a.required_binaries,
      env.pathExists (joinPath (joinPath dir (a.id ++ "-" ++ t)) nb.2) = true →
      ∃ l, determine_linkage env (joinPath (joinPath dir (a.id ++ "-" ++ t)) nb.2) t =
        .ok l) := by
  refine ⟨fun dirPath target name binary rest e hex hdet => ?_,
    fetch_linkage_ok_inspect env⟩
  simp only [fetchBins]
  rw [if_pos hex, hdet]

/-- Claim C2 witness: the failing-binary propagation equation at the
`envC2` scenario, and inspection success extracted from the successful
`envC9` batch. -/
theorem C2_witness :
    fetchBins envC2 "dist/app-x86_64-apple-darwin" "x86_64-apple-darwin"
      (("b1", "bin1") :: [("b2", "bin2")]) = ([], .error .ioError) ∧
    ∃ l, determine_linkage envC9
      (joinPath (joinPath "dist" ("app" ++ "-" ++ "x86_64-apple-darwin")) "bin")
      "x86_64-apple-darwin" = .ok l :=
  ⟨(C2_batch_abort envC2).1 "dist/app-x86_64-apple-darwin"
      "x86_64-apple-darwin" "b1" "bin1" [("b2", "bin2")] .ioError (by decide) (by decide),
   (C2_batch_abort envC9).2 ["x86_64-apple-darwin"] [aC9] "dist"
     ["Binary dist/app-x86_64-apple-darwin/miss missing; skipping check"]
     [emptyLinkage "dist/app-x86_64-apple-darwin/bin" "x86_64-apple-darwin"] (by decide)
     "x86_64-apple-darwin" (by decide) aC9 (by decide) ("bin", "bin") (by decide) (by decide)⟩

end CargoDist
